import Mathlib

/-!
Shallow embedding of `src/rand_indices.rs` (crate `rust-rand-index-tuple`).

The Rust code draws randomness from a caller-supplied `Rng`.  We model the
randomness source as an infinite stream of raw natural numbers
`g : Nat → Nat` together with a cursor `k : Nat`; every primitive draw
consumes one stream element and advances the cursor, so the cursor in the
result records exactly how much of the source was consumed.  Panics are
modelled as `Except.error` carrying the panic message.

The three primitives of the external `rand` crate are modelled from their
documented contracts (their code is not part of this repository):
  * `Rng::gen_range(lo..hi)` — a uniform draw in `[lo, hi)`, panicking on an
    empty range: a raw value `r` yields `lo + r % (hi - lo)`;
  * `rand::seq::index::sample(rng, len, 2)` — two distinct indices from
    `0..len`, uniform over ordered distinct pairs: two raws reduce to
    residues modulo `len` and `len - 1`, the second index skipping the first;
  * `rand::seq::index::sample_weighted(rng, 3, w, 1)` — one index selected
    with probability proportional to its weight, erroring when the total
    weight is zero: the raw residue modulo the total falls in one of the
    cumulative-weight windows.
With uniform raws each residue class is equally likely, so probability
statements become counting statements over the finite residue spaces.
-/

namespace RandIndices

/-- Embeds `validate_inputs` (src/rand_indices.rs:5-30): panics, in order, on
`len < 3`, on equal denied indices, and on either denied index `≥ len`. -/
def validate_inputs (len deny_a deny_b : Nat) : Except String Unit :=
  if len < 3 then
    Except.error "not enough indices to pick from"
  else if deny_a = deny_b then
    Except.error "denied indices must be distinct"
  else if deny_a ≥ len then
    Except.error ("tuple (" ++ toString deny_a ++ ", " ++ toString deny_b ++
      ") is not fully contained in range 0.." ++ toString len)
  else if deny_b ≥ len then
    Except.error ("tuple (" ++ toString deny_a ++ ", " ++ toString deny_b ++
      ") is not fully contained in range 0.." ++ toString len)
  else
    Except.ok ()

/-- Modelled from the contract of `Rng::gen_range(lo..hi)`: a value in
`[lo, hi)` determined by the raw draw, `none` (panic) on an empty range. -/
def gen_range (lo hi raw : Nat) : Option Nat :=
  if lo < hi then some (lo + raw % (hi - lo)) else none

/-- Modelled from the contract of `rand::seq::index::sample(rng, len, 2)`
(src/rand_indices.rs:44-45): two distinct indices from `0..len`, uniform over
ordered distinct pairs.  The first raw reduces modulo `len`; the second
reduces modulo `len - 1` and skips over the first index. -/
def sample_two (len r0 r1 : Nat) : Nat × Nat :=
  (r0 % len,
    if r1 % (len - 1) < r0 % len then r1 % (len - 1) else r1 % (len - 1) + 1)

/-- The retry loop's acceptance test (src/rand_indices.rs:46):
`(a != deny_a && a != deny_b) || (b != deny_a && b != deny_b)`. -/
def accept_draw (a b deny_a deny_b : Nat) : Bool :=
  (a != deny_a && a != deny_b) || (b != deny_a && b != deny_b)

/-- The final ascending swap (src/rand_indices.rs:51 and :89):
`if a > b { mem::swap(&mut a, &mut b) }`. -/
def order_pair (p : Nat × Nat) : Nat × Nat :=
  if p.1 > p.2 then (p.2, p.1) else p

/-- The rejection loop of the `good` sampler (src/rand_indices.rs:43-49).
Each iteration consumes two raw draws.  The source loop is uncapped; `fuel`
only bounds how far into the stream we observe, `none` meaning the first
acceptance lies beyond the observation depth. -/
def good_loop (len deny_a deny_b : Nat) (g : Nat → Nat) :
    Nat → Nat → Option ((Nat × Nat) × Nat)
  | 0, _ => none
  | fuel + 1, k =>
    if accept_draw (sample_two len (g k) (g (k + 1))).1
        (sample_two len (g k) (g (k + 1))).2 deny_a deny_b then
      some (sample_two len (g k) (g (k + 1)), k + 2)
    else
      good_loop len deny_a deny_b g fuel (k + 2)

/-- Embeds `random_distinct_index_tuple_ordered_except_good`
(src/rand_indices.rs:36-53): validate, loop until an acceptable draw, then
order ascending.  The result carries the advanced stream cursor. -/
def random_distinct_index_tuple_ordered_except_good (len deny_a deny_b : Nat)
    (g : Nat → Nat) (k fuel : Nat) : Except String (Option ((Nat × Nat) × Nat)) :=
  match validate_inputs len deny_a deny_b with
  | Except.error e => Except.error e
  | Except.ok _ =>
    match good_loop len deny_a deny_b g fuel k with
    | none => Except.ok none
    | some (ab, k2) => Except.ok (some (order_pair ab, k2))

/-- The three contiguous ranges `[0, deny_a)`, `(deny_a, deny_b)`,
`(deny_b, len)` built after sorting the denied pair ascending
(src/rand_indices.rs:71-75), as `(lo, hi)` half-open bounds. -/
def fast_ranges (len dl dh idx : Nat) : Nat × Nat :=
  if idx = 0 then (0, dl)
  else if idx = 1 then (dl + 1, dh)
  else (dh + 1, len)

/-- `Range::len()` of a half-open `(lo, hi)` range. -/
def range_size (r : Nat × Nat) : Nat := r.2 - r.1

/-- Modelled from the contract of
`rand::seq::index::sample_weighted(rng, 3, w, 1)` (src/rand_indices.rs:76-78):
selects index `i ∈ {0,1,2}` with probability `w i / (w 0 + w 1 + w 2)`,
`none` (the `Err` that `unwrap` would panic on) when the total weight is
zero. -/
def sample_weighted (w0 w1 w2 raw : Nat) : Option Nat :=
  if w0 + w1 + w2 = 0 then none
  else if raw % (w0 + w1 + w2) < w0 then some 0
  else if raw % (w0 + w1 + w2) < w0 + w1 then some 1
  else some 2

/-- The `b` draw of the `fast` sampler when `a` hit a denied index
(src/rand_indices.rs:68-79, with `dl ≤ dh` the sorted denied pair): pick one
of the three ranges weighted by length, then draw inside it.  Consumes the
weighted-selection raw `rw` and the in-range raw `rb`. -/
def fast_b_denied (len dl dh rw rb : Nat) : Option Nat :=
  match sample_weighted (range_size (fast_ranges len dl dh 0))
      (range_size (fast_ranges len dl dh 1))
      (range_size (fast_ranges len dl dh 2)) rw with
  | none => none
  | some idx => gen_range (fast_ranges len dl dh idx).1 (fast_ranges len dl dh idx).2 rb

/-- The `b` draw of the `fast` sampler when `a` missed both denied indices
(src/rand_indices.rs:80-87): draw from `0..len-1`, remapping a collision with
`a` to `len - 1`. -/
def fast_b_free (len a rb : Nat) : Option Nat :=
  match gen_range 0 (len - 1) rb with
  | none => none
  | some b0 => some (if a = b0 then len - 1 else b0)

/-- Embeds `random_distinct_index_tuple_ordered_except_fast`
(src/rand_indices.rs:58-91).  `min`/`max` embed the
`if deny_a > deny_b { mem::swap(&mut deny_a, &mut deny_b) }` sort at line 70.
The result carries the advanced stream cursor. -/
def random_distinct_index_tuple_ordered_except_fast (len deny_a deny_b : Nat)
    (g : Nat → Nat) (k : Nat) : Except String ((Nat × Nat) × Nat) :=
  match validate_inputs len deny_a deny_b with
  | Except.error e => Except.error e
  | Except.ok _ =>
    match gen_range 0 len (g k) with
    | none => Except.error "cannot sample empty range"
    | some a =>
      if a = deny_a ∨ a = deny_b then
        match fast_b_denied len (min deny_a deny_b) (max deny_a deny_b)
            (g (k + 1)) (g (k + 2)) with
        | none => Except.error "fast sampler failed to draw b"
        | some b => Except.ok (order_pair (a, b), k + 3)
      else
        match fast_b_free len a (g (k + 1)) with
        | none => Except.error "cannot sample empty range"
        | some b => Except.ok (order_pair (a, b), k + 2)

/-- A valid output pair in the spec's sense: ordered, in range, and not the
denied pair as an unordered set. -/
def valid_pair (len deny_a deny_b i j : Nat) : Prop :=
  i < j ∧ j < len ∧
    ¬((i = deny_a ∧ j = deny_b) ∨ (i = deny_b ∧ j = deny_a))

instance (len deny_a deny_b i j : Nat) :
    Decidable (valid_pair len deny_a deny_b i j) := by
  unfold valid_pair; infer_instance

/-! ### Helper lemmas about the primitives -/

lemma validate_inputs_ok_iff (len da db : Nat) :
    validate_inputs len da db = Except.ok () ↔
      (3 ≤ len ∧ da ≠ db ∧ da < len ∧ db < len) := by
  unfold validate_inputs
  split_ifs <;> simp <;> omega

lemma validate_inputs_error_or_ok (len da db : Nat) :
    (∃ e, validate_inputs len da db = Except.error e) ∨
      validate_inputs len da db = Except.ok () := by
  unfold validate_inputs
  split_ifs <;> simp

lemma validate_inputs_error_iff (len da db : Nat) :
    (∃ e, validate_inputs len da db = Except.error e) ↔
      (len < 3 ∨ da = db ∨ len ≤ da ∨ len ≤ db) := by
  unfold validate_inputs
  split_ifs <;> simp <;> omega

lemma gen_range_spec (lo hi raw : Nat) (h : lo < hi) :
    ∃ v, gen_range lo hi raw = some v ∧ lo ≤ v ∧ v < hi := by
  refine ⟨lo + raw % (hi - lo), ?_, ?_, ?_⟩
  · simp [gen_range, h]
  · omega
  · have := Nat.mod_lt raw (y := hi - lo) (by omega)
    omega

lemma gen_range_exact (lo hi v : Nat) (h1 : lo ≤ v) (h2 : v < hi) :
    gen_range lo hi (v - lo) = some v := by
  have hm : (v - lo) % (hi - lo) = v - lo := Nat.mod_eq_of_lt (by omega)
  simp only [gen_range, if_pos (by omega : lo < hi), hm]
  congr 1
  omega

lemma sample_two_spec (len r0 r1 : Nat) (h2 : 2 ≤ len) :
    (sample_two len r0 r1).1 < len ∧ (sample_two len r0 r1).2 < len ∧
      (sample_two len r0 r1).1 ≠ (sample_two len r0 r1).2 := by
  unfold sample_two
  have hA := Nat.mod_lt r0 (y := len) (by omega)
  have hB := Nat.mod_lt r1 (y := len - 1) (by omega)
  by_cases h : r1 % (len - 1) < r0 % len <;> simp [h] <;> omega

lemma accept_draw_eq_true (a b da db : Nat) :
    accept_draw a b da db = true ↔
      ((a ≠ da ∧ a ≠ db) ∨ (b ≠ da ∧ b ≠ db)) := by
  simp [accept_draw]

lemma valid_pair_order (len da db a b : Nat) (ha : a < len) (hb : b < len)
    (hab : a ≠ b)
    (hfree : (a ≠ da ∧ a ≠ db) ∨ (b ≠ da ∧ b ≠ db)) :
    valid_pair len da db (order_pair (a, b)).1 (order_pair (a, b)).2 := by
  unfold valid_pair
  by_cases h : a > b
  · have hop : order_pair (a, b) = (b, a) := by simp [order_pair, h]
    rw [hop]
    refine ⟨h, ha, ?_⟩
    show ¬((b = da ∧ a = db) ∨ (b = db ∧ a = da))
    tauto
  · have hop : order_pair (a, b) = (a, b) := by simp [order_pair, h]
    rw [hop]
    refine ⟨by omega, hb, ?_⟩
    show ¬((a = da ∧ b = db) ∨ (a = db ∧ b = da))
    tauto

lemma sample_weighted_pos (w0 w1 w2 raw idx : Nat)
    (h : sample_weighted w0 w1 w2 raw = some idx) :
    (idx = 0 ∧ 0 < w0) ∨ (idx = 1 ∧ 0 < w1) ∨ (idx = 2 ∧ 0 < w2) := by
  unfold sample_weighted at h
  split_ifs at h with h0 h1 h2 <;> simp_all
  · omega
  · omega
  · have := Nat.mod_lt raw (y := w0 + w1 + w2) (by omega)
    omega

lemma sample_weighted_total_pos (w0 w1 w2 raw : Nat) (h : 0 < w0 + w1 + w2) :
    ∃ idx, sample_weighted w0 w1 w2 raw = some idx := by
  unfold sample_weighted
  split_ifs <;> first | omega | exact ⟨_, rfl⟩

lemma sample_weighted_hit0 (w0 w1 w2 : Nat) (h : 0 < w0) :
    sample_weighted w0 w1 w2 0 = some 0 := by
  unfold sample_weighted
  rw [if_neg (by omega : ¬(w0 + w1 + w2 = 0)), Nat.zero_mod, if_pos h]

lemma sample_weighted_hit1 (w0 w1 w2 : Nat) (h : 0 < w1) :
    sample_weighted w0 w1 w2 w0 = some 1 := by
  unfold sample_weighted
  have hm : w0 % (w0 + w1 + w2) = w0 := Nat.mod_eq_of_lt (by omega)
  rw [if_neg (by omega), hm, if_neg (by omega), if_pos (by omega)]

lemma sample_weighted_hit2 (w0 w1 w2 : Nat) (h : 0 < w2) :
    sample_weighted w0 w1 w2 (w0 + w1) = some 2 := by
  unfold sample_weighted
  have hm : (w0 + w1) % (w0 + w1 + w2) = w0 + w1 := Nat.mod_eq_of_lt (by omega)
  rw [if_neg (by omega), hm, if_neg (by omega), if_neg (by omega)]

lemma sample_weighted_count (w0 w1 w2 : Nat) :
    ((Finset.range (w0 + w1 + w2)).filter
        (fun r => sample_weighted w0 w1 w2 r = some 0)).card = w0 ∧
    ((Finset.range (w0 + w1 + w2)).filter
        (fun r => sample_weighted w0 w1 w2 r = some 1)).card = w1 ∧
    ((Finset.range (w0 + w1 + w2)).filter
        (fun r => sample_weighted w0 w1 w2 r = some 2)).card = w2 := by
  by_cases htot : w0 + w1 + w2 = 0
  · have hr0 : Finset.range (w0 + w1 + w2) = ∅ := by rw [htot]; rfl
    rw [hr0]
    refine ⟨?_, ?_, ?_⟩ <;> simp <;> omega
  · have key : ∀ r < w0 + w1 + w2, ∀ idx,
        (sample_weighted w0 w1 w2 r = some idx ↔
          (idx = 0 ∧ r < w0) ∨ (idx = 1 ∧ w0 ≤ r ∧ r < w0 + w1) ∨
          (idx = 2 ∧ w0 + w1 ≤ r)) := by
      intro r hr idx
      have hm : r % (w0 + w1 + w2) = r := Nat.mod_eq_of_lt hr
      unfold sample_weighted
      rw [if_neg htot, hm]
      split_ifs <;> simp <;> omega
    refine ⟨?_, ?_, ?_⟩
    · have : (Finset.range (w0 + w1 + w2)).filter
          (fun r => sample_weighted w0 w1 w2 r = some 0) = Finset.range w0 := by
        ext r
        simp only [Finset.mem_filter, Finset.mem_range]
        constructor
        · rintro ⟨hr, hs⟩
          have := (key r hr 0).mp hs
          omega
        · intro hr
          refine ⟨by omega, (key r (by omega) 0).mpr ?_⟩
          omega
      rw [this, Finset.card_range]
    · have : (Finset.range (w0 + w1 + w2)).filter
          (fun r => sample_weighted w0 w1 w2 r = some 1) =
            Finset.Ico w0 (w0 + w1) := by
        ext r
        simp only [Finset.mem_filter, Finset.mem_range, Finset.mem_Ico]
        constructor
        · rintro ⟨hr, hs⟩
          have := (key r hr 1).mp hs
          omega
        · intro hr
          refine ⟨by omega, (key r (by omega) 1).mpr ?_⟩
          omega
      rw [this, Nat.card_Ico]
      omega
    · have : (Finset.range (w0 + w1 + w2)).filter
          (fun r => sample_weighted w0 w1 w2 r = some 2) =
            Finset.Ico (w0 + w1) (w0 + w1 + w2) := by
        ext r
        simp only [Finset.mem_filter, Finset.mem_range, Finset.mem_Ico]
        constructor
        · rintro ⟨hr, hs⟩
          have := (key r hr 2).mp hs
          omega
        · intro hr
          refine ⟨by omega, (key r (by omega) 2).mpr ?_⟩
          omega
      rw [this, Nat.card_Ico]
      omega

lemma gen_range_eval0 (hi raw : Nat) (h : 0 < hi) :
    gen_range 0 hi raw = some (raw % hi) := by
  unfold gen_range
  rw [if_pos h]
  simp

lemma sample_two_eval (len r0 r1 : Nat) (h0 : r0 < len) (h1 : r1 < len - 1) :
    sample_two len r0 r1 = (r0, if r1 < r0 then r1 else r1 + 1) := by
  unfold sample_two
  rw [Nat.mod_eq_of_lt h0, Nat.mod_eq_of_lt h1]

lemma order_pair_gt (a b : Nat) (h : b < a) : order_pair (a, b) = (b, a) := by
  simp only [order_pair]
  rw [if_pos h]

lemma order_pair_le (a b : Nat) (h : a ≤ b) : order_pair (a, b) = (a, b) := by
  simp only [order_pair]
  rw [if_neg (by omega)]

/-! ### The two `b`-drawing branches of the fast sampler -/

lemma fast_b_denied_spec (len dl dh rsel rin : Nat) (h3 : 3 ≤ len)
    (hdl : dl < dh) (hdh : dh < len) :
    ∃ b idx,
      sample_weighted (range_size (fast_ranges len dl dh 0))
        (range_size (fast_ranges len dl dh 1))
        (range_size (fast_ranges len dl dh 2)) rsel = some idx ∧
      fast_b_denied len dl dh rsel rin = some b ∧
      (fast_ranges len dl dh idx).1 ≤ b ∧ b < (fast_ranges len dl dh idx).2 ∧
      b < len ∧ b ≠ dl ∧ b ≠ dh := by
  have hw0 : range_size (fast_ranges len dl dh 0) = dl := by
    simp [range_size, fast_ranges]
  have hw1 : range_size (fast_ranges len dl dh 1) = dh - (dl + 1) := by
    simp [range_size, fast_ranges]
  have hw2 : range_size (fast_ranges len dl dh 2) = len - (dh + 1) := by
    simp [range_size, fast_ranges]
  obtain ⟨idx, hidx⟩ := sample_weighted_total_pos
    (range_size (fast_ranges len dl dh 0)) (range_size (fast_ranges len dl dh 1))
    (range_size (fast_ranges len dl dh 2)) rsel (by rw [hw0, hw1, hw2]; omega)
  have hpos := sample_weighted_pos _ _ _ _ _ hidx
  have hlt : (fast_ranges len dl dh idx).1 < (fast_ranges len dl dh idx).2 := by
    rcases hpos with ⟨h0, hp⟩ | ⟨h1, hp⟩ | ⟨h2, hp⟩ <;> subst_vars <;>
      simp [range_size, fast_ranges] at hp ⊢ <;> omega
  obtain ⟨v, hv, hlo, hhi⟩ := gen_range_spec _ _ rin hlt
  refine ⟨v, idx, hidx, ?_, hlo, hhi, ?_, ?_, ?_⟩
  · unfold fast_b_denied
    simp only [hidx]
    exact hv
  all_goals
    rcases hpos with ⟨h0, hp⟩ | ⟨h1, hp⟩ | ⟨h2, hp⟩ <;> subst_vars <;>
      simp [range_size, fast_ranges] at hp hlo hhi <;> omega

lemma fast_b_denied_exact (len dl dh j : Nat) (hdl : dl < dh)
    (hdh : dh < len) (hj : j < len) (hj1 : j ≠ dl) (hj2 : j ≠ dh) :
    ∃ rsel rin, fast_b_denied len dl dh rsel rin = some j := by
  have hw0 : range_size (fast_ranges len dl dh 0) = dl := by
    simp [range_size, fast_ranges]
  have hw1 : range_size (fast_ranges len dl dh 1) = dh - (dl + 1) := by
    simp [range_size, fast_ranges]
  have hw2 : range_size (fast_ranges len dl dh 2) = len - (dh + 1) := by
    simp [range_size, fast_ranges]
  rcases Nat.lt_trichotomy j dl with hc | hc | hc
  · refine ⟨0, j, ?_⟩
    unfold fast_b_denied
    rw [hw0, hw1, hw2, sample_weighted_hit0 _ _ _ (by omega)]
    show gen_range 0 dl j = some j
    simpa using gen_range_exact 0 dl j (by omega) hc
  · omega
  · rcases Nat.lt_trichotomy j dh with hc2 | hc2 | hc2
    · refine ⟨dl, j - (dl + 1), ?_⟩
      unfold fast_b_denied
      rw [hw0, hw1, hw2, sample_weighted_hit1 _ _ _ (by omega)]
      show gen_range (dl + 1) dh (j - (dl + 1)) = some j
      exact gen_range_exact (dl + 1) dh j (by omega) hc2
    · omega
    · refine ⟨dl + (dh - (dl + 1)), j - (dh + 1), ?_⟩
      unfold fast_b_denied
      rw [hw0, hw1, hw2, sample_weighted_hit2 _ _ _ (by omega)]
      show gen_range (dh + 1) len (j - (dh + 1)) = some j
      exact gen_range_exact (dh + 1) len j (by omega) hj

lemma fast_b_free_eval (len a rb : Nat) (h2 : 2 ≤ len) :
    fast_b_free len a rb =
      some (if a = rb % (len - 1) then len - 1 else rb % (len - 1)) := by
  unfold fast_b_free
  rw [gen_range_eval0 (len - 1) rb (by omega)]

lemma fast_b_free_spec (len a rb : Nat) (h2 : 2 ≤ len) (ha : a < len) :
    ∃ b, fast_b_free len a rb = some b ∧ b < len ∧ b ≠ a := by
  rw [fast_b_free_eval len a rb h2]
  have hm := Nat.mod_lt rb (y := len - 1) (by omega)
  by_cases h : a = rb % (len - 1)
  · exact ⟨len - 1, by rw [if_pos h], by omega, by omega⟩
  · exact ⟨rb % (len - 1), by rw [if_neg h], by omega, by omega⟩

lemma fast_b_free_exact (len a v : Nat) (h2 : 2 ≤ len) (ha : a < len)
    (hv : v < len) (hne : v ≠ a) :
    fast_b_free len a (if v = len - 1 then a else v) = some v := by
  rw [fast_b_free_eval len a _ h2]
  by_cases h : v = len - 1
  · rw [if_pos h]
    have hm : a % (len - 1) = a := Nat.mod_eq_of_lt (by omega)
    rw [hm, if_pos rfl, h]
  · rw [if_neg h]
    have hm : v % (len - 1) = v := Nat.mod_eq_of_lt (by omega)
    rw [hm, if_neg (by omega)]

lemma fast_b_free_count (len a v : Nat) (h2 : 2 ≤ len) (ha : a < len)
    (hv : v < len) (hne : v ≠ a) :
    ((Finset.range (len - 1)).filter
        (fun r => fast_b_free len a r = some v)).card = 1 := by
  rw [Finset.card_eq_one]
  refine ⟨if v = len - 1 then a else v, ?_⟩
  ext r
  simp only [Finset.mem_filter, Finset.mem_range, Finset.mem_singleton]
  constructor
  · rintro ⟨hr, hf⟩
    rw [fast_b_free_eval len a r h2, Nat.mod_eq_of_lt hr] at hf
    by_cases h : a = r
    · rw [if_pos h] at hf
      simp only [Option.some.injEq] at hf
      rw [if_pos (by omega)]
      omega
    · rw [if_neg h] at hf
      simp only [Option.some.injEq] at hf
      rw [if_neg (by omega)]
      omega
  · intro hr
    subst hr
    constructor
    · by_cases h : v = len - 1
      · rw [if_pos h]
        omega
      · rw [if_neg h]
        omega
    · exact fast_b_free_exact len a v h2 ha hv hne

/-! ### The rejection loop of the good sampler -/

/-- The draw of iteration `n` of the retry loop, when the loop starts at
stream cursor `k`: each iteration consumes two raw values. -/
def good_draw (len : Nat) (g : Nat → Nat) (k n : Nat) : Nat × Nat :=
  sample_two len (g (k + 2 * n)) (g (k + 2 * n + 1))

lemma good_draw_shift (len : Nat) (g : Nat → Nat) (k m : Nat) :
    good_draw len g (k + 2) m = good_draw len g k (m + 1) := by
  unfold good_draw
  have e1 : k + 2 + 2 * m = k + 2 * (m + 1) := by ring
  rw [e1]

lemma good_loop_sound (len da db : Nat) (g : Nat → Nat) :
    ∀ fuel k ab k2, good_loop len da db g fuel k = some (ab, k2) →
      accept_draw ab.1 ab.2 da db = true ∧ ∃ r0 r1, ab = sample_two len r0 r1 := by
  intro fuel
  induction fuel with
  | zero =>
    intro k ab k2 h
    simp [good_loop] at h
  | succ n ih =>
    intro k ab k2 h
    unfold good_loop at h
    by_cases hacc : accept_draw (sample_two len (g k) (g (k + 1))).1
        (sample_two len (g k) (g (k + 1))).2 da db = true
    · rw [if_pos hacc] at h
      simp only [Option.some.injEq, Prod.mk.injEq] at h
      obtain ⟨hab, _⟩ := h
      subst hab
      exact ⟨hacc, g k, g (k + 1), rfl⟩
    · rw [if_neg hacc] at h
      exact ih _ _ _ h

lemma good_loop_first (len da db : Nat) (g : Nat → Nat) :
    ∀ n fuel k, n < fuel →
      (∀ m, m < n →
        accept_draw (good_draw len g k m).1 (good_draw len g k m).2 da db = false) →
      accept_draw (good_draw len g k n).1 (good_draw len g k n).2 da db = true →
      good_loop len da db g fuel k = some (good_draw len g k n, k + 2 * n + 2) := by
  intro n
  induction n with
  | zero =>
    intro fuel k hf _ hacc
    cases fuel with
    | zero => omega
    | succ f =>
      unfold good_loop
      have hacc0 : accept_draw (sample_two len (g k) (g (k + 1))).1
          (sample_two len (g k) (g (k + 1))).2 da db = true := hacc
      rw [if_pos hacc0]
      rfl
  | succ m ih =>
    intro fuel k hf hrej hacc
    cases fuel with
    | zero => omega
    | succ f =>
      unfold good_loop
      have h0 : accept_draw (sample_two len (g k) (g (k + 1))).1
          (sample_two len (g k) (g (k + 1))).2 da db = false := hrej 0 (by omega)
      have h0' : ¬(accept_draw (sample_two len (g k) (g (k + 1))).1
          (sample_two len (g k) (g (k + 1))).2 da db = true) := by
        rw [h0]
        simp
      rw [if_neg h0']
      have hstep := ih f (k + 2) (by omega) ?_ ?_
      · rw [hstep, good_draw_shift]
        have e2 : k + 2 + 2 * m + 2 = k + 2 * (m + 1) + 2 := by ring
        rw [e2]
      · intro m' hm'
        rw [good_draw_shift]
        exact hrej (m' + 1) (by omega)
      · rw [good_draw_shift]
        exact hacc

/-! ### Whole-sampler lemmas -/

lemma good_error (len da db : Nat) (g : Nat → Nat) (k fuel : Nat) (e : String)
    (he : validate_inputs len da db = Except.error e) :
    random_distinct_index_tuple_ordered_except_good len da db g k fuel =
      Except.error e := by
  unfold random_distinct_index_tuple_ordered_except_good
  simp only [he]

lemma fast_error (len da db : Nat) (g : Nat → Nat) (k : Nat) (e : String)
    (he : validate_inputs len da db = Except.error e) :
    random_distinct_index_tuple_ordered_except_fast len da db g k =
      Except.error e := by
  unfold random_distinct_index_tuple_ordered_except_fast
  simp only [he]

lemma good_eval_loop (len da db : Nat) (g : Nat → Nat) (k fuel : Nat)
    (hok : validate_inputs len da db = Except.ok ()) :
    random_distinct_index_tuple_ordered_except_good len da db g k fuel =
      match good_loop len da db g fuel k with
      | none => Except.ok none
      | some (ab, k2) => Except.ok (some (order_pair ab, k2)) := by
  unfold random_distinct_index_tuple_ordered_except_good
  simp only [hok]

lemma good_sound (len da db : Nat) (g : Nat → Nat) (k fuel : Nat)
    (p : Nat × Nat) (k2 : Nat)
    (h : random_distinct_index_tuple_ordered_except_good len da db g k fuel =
      Except.ok (some (p, k2))) :
    (3 ≤ len ∧ da ≠ db ∧ da < len ∧ db < len) ∧
      valid_pair len da db p.1 p.2 := by
  rcases validate_inputs_error_or_ok len da db with ⟨e, he⟩ | hok
  · rw [good_error len da db g k fuel e he] at h
    cases h
  · have hv := (validate_inputs_ok_iff len da db).mp hok
    rw [good_eval_loop len da db g k fuel hok] at h
    cases hl : good_loop len da db g fuel k with
    | none => rw [hl] at h; simp at h
    | some q =>
      obtain ⟨ab, k2'⟩ := q
      rw [hl] at h
      simp only [Except.ok.injEq, Option.some.injEq, Prod.mk.injEq] at h
      obtain ⟨hop, _⟩ := h
      obtain ⟨hacc, r0, r1, hst⟩ := good_loop_sound len da db g fuel k ab k2' hl
      have hspec := sample_two_spec len r0 r1 (by omega)
      rw [← hst] at hspec
      have hfree := (accept_draw_eq_true ab.1 ab.2 da db).mp hacc
      have := valid_pair_order len da db ab.1 ab.2 hspec.1 hspec.2.1 hspec.2.2 hfree
      rw [Prod.mk.eta, hop] at this
      exact ⟨hv, this⟩

lemma good_accept_first (len da db : Nat) (g : Nat → Nat) (k fuel : Nat)
    (hok : validate_inputs len da db = Except.ok ())
    (hacc : accept_draw (sample_two len (g k) (g (k + 1))).1
      (sample_two len (g k) (g (k + 1))).2 da db = true) :
    random_distinct_index_tuple_ordered_except_good len da db g k (fuel + 1) =
      Except.ok (some (order_pair (sample_two len (g k) (g (k + 1))), k + 2)) := by
  rw [good_eval_loop len da db g k (fuel + 1) hok]
  unfold good_loop
  rw [if_pos hacc]

lemma fast_eval_denied (len da db : Nat) (g : Nat → Nat) (k : Nat)
    (hok : validate_inputs len da db = Except.ok ())
    (hden : g k % len = da ∨ g k % len = db) (b : Nat)
    (hb : fast_b_denied len (min da db) (max da db) (g (k + 1)) (g (k + 2)) =
      some b) :
    random_distinct_index_tuple_ordered_except_fast len da db g k =
      Except.ok (order_pair (g k % len, b), k + 3) := by
  have hv := (validate_inputs_ok_iff len da db).mp hok
  unfold random_distinct_index_tuple_ordered_except_fast
  simp only [hok, gen_range_eval0 len (g k) (by omega), hb]
  rw [if_pos hden]

lemma fast_eval_free (len da db : Nat) (g : Nat → Nat) (k : Nat)
    (hok : validate_inputs len da db = Except.ok ())
    (hden : ¬(g k % len = da ∨ g k % len = db)) (b : Nat)
    (hb : fast_b_free len (g k % len) (g (k + 1)) = some b) :
    random_distinct_index_tuple_ordered_except_fast len da db g k =
      Except.ok (order_pair (g k % len, b), k + 2) := by
  have hv := (validate_inputs_ok_iff len da db).mp hok
  unfold random_distinct_index_tuple_ordered_except_fast
  simp only [hok, gen_range_eval0 len (g k) (by omega), hb]
  rw [if_neg hden]

lemma fast_ok_valid (len da db : Nat) (g : Nat → Nat) (k : Nat)
    (h3 : 3 ≤ len) (hne : da ≠ db) (ha : da < len) (hb : db < len) :
    ∃ p k2, random_distinct_index_tuple_ordered_except_fast len da db g k =
        Except.ok (p, k2) ∧
      valid_pair len da db p.1 p.2 ∧ k ≤ k2 ∧ k2 ≤ k + 3 := by
  have hok : validate_inputs len da db = Except.ok () :=
    (validate_inputs_ok_iff len da db).mpr ⟨h3, hne, ha, hb⟩
  have halen : g k % len < len := Nat.mod_lt _ (by omega)
  by_cases hden : g k % len = da ∨ g k % len = db
  · obtain ⟨b, idx, _, hbd, _, _, hblen, hbdl, hbdh⟩ :=
      fast_b_denied_spec len (min da db) (max da db) (g (k + 1)) (g (k + 2)) h3
        (by omega) (by omega)
    refine ⟨order_pair (g k % len, b), k + 3,
      fast_eval_denied len da db g k hok hden b hbd, ?_, by omega, by omega⟩
    exact valid_pair_order len da db (g k % len) b halen hblen (by omega) (by omega)
  · obtain ⟨b, hbf, hblen, hbne⟩ :=
      fast_b_free_spec len (g k % len) (g (k + 1)) (by omega) halen
    refine ⟨order_pair (g k % len, b), k + 2,
      fast_eval_free len da db g k hok hden b hbf, ?_, by omega, by omega⟩
    exact valid_pair_order len da db (g k % len) b halen hblen (by omega)
      (Or.inl (by omega))

lemma fast_sound (len da db : Nat) (g : Nat → Nat) (k : Nat)
    (p : Nat × Nat) (k2 : Nat)
    (h : random_distinct_index_tuple_ordered_except_fast len da db g k =
      Except.ok (p, k2)) :
    (3 ≤ len ∧ da ≠ db ∧ da < len ∧ db < len) ∧
      valid_pair len da db p.1 p.2 ∧ k ≤ k2 ∧ k2 ≤ k + 3 := by
  rcases validate_inputs_error_or_ok len da db with ⟨e, he⟩ | hok
  · rw [fast_error len da db g k e he] at h
    cases h
  · have hv := (validate_inputs_ok_iff len da db).mp hok
    obtain ⟨p', k2', heq, hvp, hk⟩ :=
      fast_ok_valid len da db g k hv.1 hv.2.1 hv.2.2.1 hv.2.2.2
    rw [heq] at h
    simp only [Except.ok.injEq, Prod.mk.injEq] at h
    obtain ⟨hp, hk2⟩ := h
    subst hp
    subst hk2
    exact ⟨hv, hvp, hk⟩

/-! ### Determinism: outputs depend only on the consumed stream values -/

lemma good_loop_congr (len da db : Nat) (g g' : Nat → Nat) :
    ∀ fuel k, (∀ i, i < 2 * fuel → g (k + i) = g' (k + i)) →
      good_loop len da db g fuel k = good_loop len da db g' fuel k := by
  intro fuel
  induction fuel with
  | zero => intro k _; rfl
  | succ n ih =>
    intro k h
    have e0 : g k = g' k := by simpa using h 0 (by omega)
    have e1 : g (k + 1) = g' (k + 1) := h 1 (by omega)
    unfold good_loop
    rw [e0, e1, ih (k + 2) ?_]
    intro i hi
    have e : k + 2 + i = k + (2 + i) := by ring
    rw [e]
    exact h (2 + i) (by omega)

lemma good_congr (len da db : Nat) (g g' : Nat → Nat) (k fuel : Nat)
    (h : ∀ i, i < 2 * fuel → g (k + i) = g' (k + i)) :
    random_distinct_index_tuple_ordered_except_good len da db g k fuel =
      random_distinct_index_tuple_ordered_except_good len da db g' k fuel := by
  unfold random_distinct_index_tuple_ordered_except_good
  rw [good_loop_congr len da db g g' fuel k h]

lemma fast_congr (len da db : Nat) (g g' : Nat → Nat) (k : Nat)
    (h : ∀ i, i < 3 → g (k + i) = g' (k + i)) :
    random_distinct_index_tuple_ordered_except_fast len da db g k =
      random_distinct_index_tuple_ordered_except_fast len da db g' k := by
  have e0 : g k = g' k := by simpa using h 0 (by omega)
  have e1 : g (k + 1) = g' (k + 1) := h 1 (by omega)
  have e2 : g (k + 2) = g' (k + 2) := h 2 (by omega)
  unfold random_distinct_index_tuple_ordered_except_fast
  rw [e0, e1, e2]

/-! ### Symmetry in the denied pair -/

lemma accept_draw_comm (a b x y : Nat) :
    accept_draw a b x y = accept_draw a b y x := by
  rw [Bool.eq_iff_iff, accept_draw_eq_true, accept_draw_eq_true]
  tauto

lemma good_loop_swap (len x y : Nat) (g : Nat → Nat) :
    ∀ fuel k, good_loop len x y g fuel k = good_loop len y x g fuel k := by
  intro fuel
  induction fuel with
  | zero => intro k; rfl
  | succ n ih =>
    intro k
    unfold good_loop
    rw [accept_draw_comm, ih (k + 2)]

/-! ### Reachability of every valid pair -/

lemma good_reaches (len da db i j : Nat) (h3 : 3 ≤ len) (hne : da ≠ db)
    (ha : da < len) (hb : db < len) (hvp : valid_pair len da db i j) :
    random_distinct_index_tuple_ordered_except_good len da db
        (fun n => if n = 0 then i else j - 1) 0 1 =
      Except.ok (some ((i, j), 2)) := by
  obtain ⟨hij, hjlen, hnp⟩ := hvp
  have hok : validate_inputs len da db = Except.ok () :=
    (validate_inputs_ok_iff len da db).mpr ⟨h3, hne, ha, hb⟩
  have hst : sample_two len i (j - 1) = (i, j) := by
    rw [sample_two_eval len i (j - 1) (by omega) (by omega), if_neg (by omega)]
    have e : j - 1 + 1 = j := by omega
    rw [e]
  have hacc : accept_draw i j da db = true := by
    rw [accept_draw_eq_true]
    omega
  have hacc2 : accept_draw
      (sample_two len ((fun n : Nat => if n = 0 then i else j - 1) 0)
        ((fun n : Nat => if n = 0 then i else j - 1) (0 + 1))).1
      (sample_two len ((fun n : Nat => if n = 0 then i else j - 1) 0)
        ((fun n : Nat => if n = 0 then i else j - 1) (0 + 1))).2 da db = true := by
    show accept_draw (sample_two len i (j - 1)).1 (sample_two len i (j - 1)).2
      da db = true
    rw [hst]
    exact hacc
  have h1 := good_accept_first len da db
    (fun n => if n = 0 then i else j - 1) 0 0 hok hacc2
  rw [show sample_two len ((fun n : Nat => if n = 0 then i else j - 1) 0)
      ((fun n : Nat => if n = 0 then i else j - 1) (0 + 1)) = (i, j) from hst,
    order_pair_le i j (by omega)] at h1
  exact h1

lemma fast_reaches (len da db i j : Nat) (h3 : 3 ≤ len) (hne : da ≠ db)
    (ha : da < len) (hb : db < len) (hvp : valid_pair len da db i j) :
    ∃ g : Nat → Nat, ∃ k2,
      random_distinct_index_tuple_ordered_except_fast len da db g 0 =
        Except.ok ((i, j), k2) := by
  obtain ⟨hij, hjlen, hnp⟩ := hvp
  have hok : validate_inputs len da db = Except.ok () :=
    (validate_inputs_ok_iff len da db).mpr ⟨h3, hne, ha, hb⟩
  by_cases hiden : i = da ∨ i = db
  · have hjda : j ≠ da := by omega
    have hjdb : j ≠ db := by omega
    obtain ⟨rsel, rin, hbd⟩ := fast_b_denied_exact len (min da db) (max da db) j
      (by omega) (by omega) hjlen (by omega) (by omega)
    refine ⟨fun n => if n = 0 then i else if n = 1 then rsel else rin, 3, ?_⟩
    have hmod : (fun n : Nat => if n = 0 then i else if n = 1 then rsel else rin)
        0 % len = i := by
      show i % len = i
      exact Nat.mod_eq_of_lt (by omega)
    have hden' : (fun n : Nat => if n = 0 then i else if n = 1 then rsel else rin)
          0 % len = da ∨
        (fun n : Nat => if n = 0 then i else if n = 1 then rsel else rin)
          0 % len = db := by
      rw [hmod]
      exact hiden
    have hbd' : fast_b_denied len (min da db) (max da db)
        ((fun n : Nat => if n = 0 then i else if n = 1 then rsel else rin) (0 + 1))
        ((fun n : Nat => if n = 0 then i else if n = 1 then rsel else rin) (0 + 2)) =
          some j := hbd
    have h1 := fast_eval_denied len da db
      (fun n => if n = 0 then i else if n = 1 then rsel else rin) 0 hok hden' j hbd'
    rw [hmod, order_pair_le i j (by omega)] at h1
    exact h1
  · refine ⟨fun n => if n = 0 then i else if j = len - 1 then i else j, 2, ?_⟩
    have hmod : (fun n : Nat => if n = 0 then i else if j = len - 1 then i else j)
        0 % len = i := by
      show i % len = i
      exact Nat.mod_eq_of_lt (by omega)
    have hden' : ¬((fun n : Nat => if n = 0 then i else if j = len - 1 then i else j)
          0 % len = da ∨
        (fun n : Nat => if n = 0 then i else if j = len - 1 then i else j)
          0 % len = db) := by
      rw [hmod]
      exact hiden
    have hbf' : fast_b_free len
        ((fun n : Nat => if n = 0 then i else if j = len - 1 then i else j) 0 % len)
        ((fun n : Nat => if n = 0 then i else if j = len - 1 then i else j) (0 + 1)) =
          some j := by
      rw [hmod]
      exact fast_b_free_exact len i j (by omega) (by omega) hjlen (by omega)
    have h1 := fast_eval_free len da db
      (fun n => if n = 0 then i else if j = len - 1 then i else j) 0 hok hden' j hbf'
    rw [hmod, order_pair_le i j (by omega)] at h1
    exact h1

/-- Observable result of a call: the returned value, `none` on a panic. -/
def ok_value {α : Type} (x : Except String α) : Option α :=
  match x with
  | Except.ok v => some v
  | Except.error _ => none

/-- One iteration of the good sampler's loop draws a residue pair
`(r0, r1) ∈ range len × range (len-1)`; with fair raws each residue pair is
equally likely.  This set collects the residue pairs that the loop accepts
and that map (after the ascending swap) to the output `(i, j)`. -/
def accepted_residues (len da db i j : Nat) : Finset (Nat × Nat) :=
  (Finset.range len ×ˢ Finset.range (len - 1)).filter
    (fun r =>
      accept_draw (sample_two len r.1 r.2).1 (sample_two len r.1 r.2).2 da db
          = true ∧
      order_pair (sample_two len r.1 r.2) = (i, j))

end RandIndices

namespace RandIndices

/-- Claim C1: for every valid input (`len ≥ 3`, distinct in-range denied
indices) and every randomness source, any pair `(lo, hi)` returned by either
sampler satisfies `lo < hi < len` and `{lo, hi} ≠ {deny_a, deny_b}`. -/
theorem c1_output_ordered_in_range_not_denied (len da db : Nat)
    (h3 : 3 ≤ len) (hne : da ≠ db) (ha : da < len) (hb : db < len) :
    (∀ g : Nat → Nat, ∀ k fuel lo hi k2 : Nat,
      random_distinct_index_tuple_ordered_except_good len da db g k fuel =
        Except.ok (some ((lo, hi), k2)) →
      lo < hi ∧ hi < len ∧ ¬((lo = da ∧ hi = db) ∨ (lo = db ∧ hi = da))) ∧
    (∀ g : Nat → Nat, ∀ k lo hi k2 : Nat,
      random_distinct_index_tuple_ordered_except_fast len da db g k =
        Except.ok ((lo, hi), k2) →
      lo < hi ∧ hi < len ∧ ¬((lo = da ∧ hi = db) ∨ (lo = db ∧ hi = da))) := by
  constructor
  · intro g k fuel lo hi k2 h
    exact (good_sound len da db g k fuel (lo, hi) k2 h).2
  · intro g k lo hi k2 h
    exact (fast_sound len da db g k (lo, hi) k2 h).2.1

theorem c1_witness :
    1 < 2 ∧ 2 < 3 ∧ ¬((1 = 0 ∧ 2 = 2) ∨ (1 = 2 ∧ 2 = 0)) :=
  (c1_output_ordered_in_range_not_denied 3 0 2 (by decide) (by decide)
    (by decide) (by decide)).1 (fun _ => 1) 0 1 1 2 2 rfl

/-- Claim C2: in the good sampler, each loop iteration draws a uniform
residue pair; for every valid input and every valid output pair, exactly 2
of the equally likely residue pairs are accepted and map to that pair, so
every valid pair is returned with exactly equal probability (rejection
sampling preserves uniformity). -/
theorem c2_good_uniform (len da db : Nat) (h3 : 3 ≤ len) (hne : da ≠ db)
    (ha : da < len) (hb : db < len) :
    ∀ i j : Nat, valid_pair len da db i j →
      (accepted_residues len da db i j).card = 2 := by
  intro i j hvp
  obtain ⟨hij, hjlen, hnp⟩ := hvp
  have key : accepted_residues len da db i j = {(i, j - 1), (j, i)} := by
    ext r
    obtain ⟨r0, r1⟩ := r
    simp only [accepted_residues, Finset.mem_filter, Finset.mem_product,
      Finset.mem_range, Finset.mem_insert, Finset.mem_singleton, Prod.mk.injEq]
    constructor
    · rintro ⟨⟨hr0, hr1⟩, _, hord⟩
      rw [sample_two_eval len r0 r1 hr0 hr1] at hord
      by_cases hlt : r1 < r0
      · rw [if_pos hlt, order_pair_gt r0 r1 hlt] at hord
        simp only [Prod.mk.injEq] at hord
        right
        omega
      · rw [if_neg hlt, order_pair_le r0 (r1 + 1) (by omega)] at hord
        simp only [Prod.mk.injEq] at hord
        left
        omega
    · rintro (⟨h0, h1⟩ | ⟨h0, h1⟩)
      · rw [h0, h1]
        refine ⟨⟨by omega, by omega⟩, ?_, ?_⟩
        · rw [sample_two_eval len i (j - 1) (by omega) (by omega),
            if_neg (by omega)]
          have e : j - 1 + 1 = j := by omega
          rw [e]
          show accept_draw i j da db = true
          rw [accept_draw_eq_true]
          omega
        · rw [sample_two_eval len i (j - 1) (by omega) (by omega),
            if_neg (by omega)]
          have e : j - 1 + 1 = j := by omega
          rw [e, order_pair_le i j (by omega)]
      · rw [h0, h1]
        refine ⟨⟨by omega, by omega⟩, ?_, ?_⟩
        · rw [sample_two_eval len j i (by omega) (by omega), if_pos (by omega)]
          show accept_draw j i da db = true
          rw [accept_draw_eq_true]
          omega
        · rw [sample_two_eval len j i (by omega) (by omega), if_pos (by omega),
            order_pair_gt j i (by omega)]
  rw [key, Finset.card_insert_of_not_mem
    (by simp only [Finset.mem_singleton, Prod.mk.injEq]; omega),
    Finset.card_singleton]

theorem c2_witness : (accepted_residues 3 0 2 0 1).card = 2 :=
  c2_good_uniform 3 0 2 (by decide) (by decide) (by decide) (by decide)
    0 1 (by decide)

/-- Claim C3: each retry-loop iteration draws two distinct indices; given
distinct denied indices the accept test passes iff the drawn unordered set
differs from the denied set (equivalently, it rejects iff both drawn values
lie in the denied set); and the sampler returns exactly the first accepted
draw, ordered ascending, with no iteration cap (any observation depth past
the first acceptance yields it). -/
theorem c3_first_accepted_draw (len da db : Nat) (h3 : 3 ≤ len)
    (hne : da ≠ db) (ha : da < len) (hb : db < len) :
    (∀ g : Nat → Nat, ∀ k n : Nat,
      (good_draw len g k n).1 ≠ (good_draw len g k n).2) ∧
    (∀ a b : Nat, a ≠ b →
      ((accept_draw a b da db = true ↔
        ¬((a = da ∧ b = db) ∨ (a = db ∧ b = da))) ∧
       (accept_draw a b da db = false ↔
        ((a = da ∨ a = db) ∧ (b = da ∨ b = db))))) ∧
    (∀ g : Nat → Nat, ∀ k fuel n : Nat, n < fuel →
      (∀ m, m < n →
        accept_draw (good_draw len g k m).1 (good_draw len g k m).2 da db
          = false) →
      accept_draw (good_draw len g k n).1 (good_draw len g k n).2 da db
        = true →
      random_distinct_index_tuple_ordered_except_good len da db g k fuel =
        Except.ok (some (order_pair (good_draw len g k n), k + 2 * n + 2))) := by
  refine ⟨?_, ?_, ?_⟩
  · intro g k n
    exact (sample_two_spec len _ _ (by omega)).2.2
  · intro a b hab
    constructor
    · rw [accept_draw_eq_true]
      omega
    · have hbo : accept_draw a b da db = false ↔
          ¬(accept_draw a b da db = true) := by
        cases accept_draw a b da db <;> simp
      rw [hbo, accept_draw_eq_true]
      omega
  · intro g k fuel n hn hrej hacc
    have hok : validate_inputs len da db = Except.ok () :=
      (validate_inputs_ok_iff len da db).mpr ⟨h3, hne, ha, hb⟩
    rw [good_eval_loop len da db g k fuel hok,
      good_loop_first len da db g n fuel k hn hrej hacc]

theorem c3_witness :
    random_distinct_index_tuple_ordered_except_good 3 0 2 (fun _ => 1) 0 1 =
      Except.ok (some (order_pair (good_draw 3 (fun _ => 1) 0 0),
        0 + 2 * 0 + 2)) :=
  (c3_first_accepted_draw 3 0 2 (by decide) (by decide) (by decide)
      (by decide)).2.2 (fun _ => 1) 0 1 0 (by decide)
    (fun m hm => absurd hm (Nat.not_lt_zero m)) (by decide)

/-- Claim C4: each sampler aborts iff `len < 3`, or the denied indices are
equal, or one of them is out of range; the abort is the shared validation's
error, produced before any randomness is drawn and independent of the
randomness source. -/
theorem c4_validation (len da db : Nat) :
    ((len < 3 ∨ da = db ∨ len ≤ da ∨ len ≤ db) ↔
      ∃ e, validate_inputs len da db = Except.error e) ∧
    (∀ e, validate_inputs len da db = Except.error e →
      ∀ g g' : Nat → Nat, ∀ k k' fuel : Nat,
        random_distinct_index_tuple_ordered_except_good len da db g k fuel =
          Except.error e ∧
        random_distinct_index_tuple_ordered_except_fast len da db g' k' =
          Except.error e) ∧
    (∀ g : Nat → Nat, ∀ k fuel : Nat,
      ((∃ e, random_distinct_index_tuple_ordered_except_good len da db g k fuel
          = Except.error e) ↔
        (len < 3 ∨ da = db ∨ len ≤ da ∨ len ≤ db))) ∧
    (∀ g : Nat → Nat, ∀ k : Nat,
      ((∃ e, random_distinct_index_tuple_ordered_except_fast len da db g k
          = Except.error e) ↔
        (len < 3 ∨ da = db ∨ len ≤ da ∨ len ≤ db))) := by
  refine ⟨(validate_inputs_error_iff len da db).symm, ?_, ?_, ?_⟩
  · intro e he g g' k k' fuel
    exact ⟨good_error len da db g k fuel e he,
      fast_error len da db g' k' e he⟩
  · intro g k fuel
    constructor
    · rintro ⟨e, hge⟩
      rcases validate_inputs_error_or_ok len da db with he' | hok
      · exact (validate_inputs_error_iff len da db).mp he'
      · rw [good_eval_loop len da db g k fuel hok] at hge
        cases hl : good_loop len da db g fuel k with
        | none => rw [hl] at hge; simp at hge
        | some q =>
          obtain ⟨ab, k2⟩ := q
          rw [hl] at hge
          simp at hge
    · intro hbad
      obtain ⟨e, he⟩ := (validate_inputs_error_iff len da db).mpr hbad
      exact ⟨e, good_error len da db g k fuel e he⟩
  · intro g k
    constructor
    · rintro ⟨e, hge⟩
      rcases validate_inputs_error_or_ok len da db with he' | hok
      · exact (validate_inputs_error_iff len da db).mp he'
      · have hv := (validate_inputs_ok_iff len da db).mp hok
        obtain ⟨p, k2, heq, _⟩ :=
          fast_ok_valid len da db g k hv.1 hv.2.1 hv.2.2.1 hv.2.2.2
        rw [heq] at hge
        cases hge
    · intro hbad
      obtain ⟨e, he⟩ := (validate_inputs_error_iff len da db).mpr hbad
      exact ⟨e, fast_error len da db g k e he⟩

theorem c4_witness :
    ∃ e, random_distinct_index_tuple_ordered_except_good 2 0 1
        (fun _ => 0) 0 1 = Except.error e :=
  ((c4_validation 2 0 1).2.2.1 (fun _ => 0) 0 1).mpr (by decide)

/-- Claim C5: in the fast sampler's denied branch (first draw hit a denied
index), `b` is drawn from one of the three ranges split by the sorted denied
pair: the weighted selection always succeeds, picks each range with a number
of equally likely raw residues equal to its length (zero-length ranges are
never chosen), and the drawn `b` lies in the selected range, so it equals
neither denied index and never equals `a`. -/
theorem c5_denied_branch_partition (len da db : Nat) (h3 : 3 ≤ len)
    (hne : da ≠ db) (ha : da < len) (hb : db < len) :
    (∀ rsel rin : Nat, ∃ b idx : Nat,
      sample_weighted (range_size (fast_ranges len (min da db) (max da db) 0))
          (range_size (fast_ranges len (min da db) (max da db) 1))
          (range_size (fast_ranges len (min da db) (max da db) 2)) rsel
        = some idx ∧
      fast_b_denied len (min da db) (max da db) rsel rin = some b ∧
      (fast_ranges len (min da db) (max da db) idx).1 ≤ b ∧
      b < (fast_ranges len (min da db) (max da db) idx).2 ∧
      b ≠ da ∧ b ≠ db ∧ ∀ a : Nat, (a = da ∨ a = db) → b ≠ a) ∧
    (∀ idx rsel : Nat,
      range_size (fast_ranges len (min da db) (max da db) idx) = 0 →
      sample_weighted (range_size (fast_ranges len (min da db) (max da db) 0))
          (range_size (fast_ranges len (min da db) (max da db) 1))
          (range_size (fast_ranges len (min da db) (max da db) 2)) rsel
        ≠ some idx) ∧
    (((Finset.range (range_size (fast_ranges len (min da db) (max da db) 0) +
          range_size (fast_ranges len (min da db) (max da db) 1) +
          range_size (fast_ranges len (min da db) (max da db) 2))).filter
        (fun r =>
          sample_weighted (range_size (fast_ranges len (min da db) (max da db) 0))
            (range_size (fast_ranges len (min da db) (max da db) 1))
            (range_size (fast_ranges len (min da db) (max da db) 2)) r
          = some 0)).card
      = range_size (fast_ranges len (min da db) (max da db) 0) ∧
    ((Finset.range (range_size (fast_ranges len (min da db) (max da db) 0) +
          range_size (fast_ranges len (min da db) (max da db) 1) +
          range_size (fast_ranges len (min da db) (max da db) 2))).filter
        (fun r =>
          sample_weighted (range_size (fast_ranges len (min da db) (max da db) 0))
            (range_size (fast_ranges len (min da db) (max da db) 1))
            (range_size (fast_ranges len (min da db) (max da db) 2)) r
          = some 1)).card
      = range_size (fast_ranges len (min da db) (max da db) 1) ∧
    ((Finset.range (range_size (fast_ranges len (min da db) (max da db) 0) +
          range_size (fast_ranges len (min da db) (max da db) 1) +
          range_size (fast_ranges len (min da db) (max da db) 2))).filter
        (fun r =>
          sample_weighted (range_size (fast_ranges len (min da db) (max da db) 0))
            (range_size (fast_ranges len (min da db) (max da db) 1))
            (range_size (fast_ranges len (min da db) (max da db) 2)) r
          = some 2)).card
      = range_size (fast_ranges len (min da db) (max da db) 2)) := by
  refine ⟨?_, ?_, sample_weighted_count _ _ _⟩
  · intro rsel rin
    obtain ⟨b, idx, hsel, hbd, hlo, hhi, hblen, hbdl, hbdh⟩ :=
      fast_b_denied_spec len (min da db) (max da db) rsel rin h3
        (by omega) (by omega)
    exact ⟨b, idx, hsel, hbd, hlo, hhi, by omega, by omega, fun a hden => by omega⟩
  · intro idx rsel hz hs
    rcases sample_weighted_pos _ _ _ _ _ hs with ⟨h0, hp⟩ | ⟨h1, hp⟩ | ⟨h2, hp⟩ <;>
      subst_vars <;> omega

theorem c5_witness :
    ∃ b idx : Nat,
      sample_weighted (range_size (fast_ranges 4 (min 0 2) (max 0 2) 0))
          (range_size (fast_ranges 4 (min 0 2) (max 0 2) 1))
          (range_size (fast_ranges 4 (min 0 2) (max 0 2) 2)) 1 = some idx ∧
      fast_b_denied 4 (min 0 2) (max 0 2) 1 0 = some b ∧
      (fast_ranges 4 (min 0 2) (max 0 2) idx).1 ≤ b ∧
      b < (fast_ranges 4 (min 0 2) (max 0 2) idx).2 ∧
      b ≠ 0 ∧ b ≠ 2 ∧ ∀ a : Nat, (a = 0 ∨ a = 2) → b ≠ a :=
  (c5_denied_branch_partition 4 0 2 (by decide) (by decide) (by decide)
    (by decide)).1 1 0

/-- Claim C6: in the fast sampler's free branch (first draw `a` missed both
denied indices), `b` comes from a draw in `0..len-1` with a collision with
`a` remapped to `len - 1`; the result is always distinct from `a`, and each
value of `0..len` other than `a` arises from exactly one of the `len - 1`
equally likely raw residues. -/
theorem c6_free_branch_remap (len a : Nat) (h3 : 3 ≤ len) (ha : a < len) :
    (∀ rb : Nat, ∃ b : Nat,
      fast_b_free len a rb = some b ∧ b < len ∧ b ≠ a) ∧
    (∀ rb : Nat, fast_b_free len a rb =
      some (if a = rb % (len - 1) then len - 1 else rb % (len - 1))) ∧
    (∀ v : Nat, v < len → v ≠ a →
      ((Finset.range (len - 1)).filter
        (fun r => fast_b_free len a r = some v)).card = 1) := by
  refine ⟨?_, ?_, ?_⟩
  · intro rb
    exact fast_b_free_spec len a rb (by omega) ha
  · intro rb
    exact fast_b_free_eval len a rb (by omega)
  · intro v hv hne
    exact fast_b_free_count len a v (by omega) ha hv hne

theorem c6_witness :
    ((Finset.range (3 - 1)).filter
      (fun r => fast_b_free 3 0 r = some 2)).card = 1 :=
  (c6_free_branch_remap 3 0 (by decide) (by decide)).2.2 2 (by decide)
    (by decide)

/-- Claim C7: once validation passes, the fast sampler never panics and
terminates having consumed at most three raw draws: the three partition
ranges have total length `len - 2 ≥ 1`, so the weighted selection succeeds
and only selects a non-empty range, and the `usize` expressions
`deny_a + 1`, `deny_b + 1`, `len - 1` stay within bounds. -/
theorem c7_fast_never_fails (len da db : Nat) (h3 : 3 ≤ len)
    (hne : da ≠ db) (ha : da < len) (hb : db < len) :
    (∀ g : Nat → Nat, ∀ k : Nat, ∃ p : Nat × Nat, ∃ k2 : Nat,
      random_distinct_index_tuple_ordered_except_fast len da db g k =
        Except.ok (p, k2) ∧ k ≤ k2 ∧ k2 ≤ k + 3) ∧
    (range_size (fast_ranges len (min da db) (max da db) 0) +
      range_size (fast_ranges len (min da db) (max da db) 1) +
      range_size (fast_ranges len (min da db) (max da db) 2) = len - 2 ∧
      1 ≤ len - 2) ∧
    (∀ rsel idx : Nat,
      sample_weighted (range_size (fast_ranges len (min da db) (max da db) 0))
          (range_size (fast_ranges len (min da db) (max da db) 1))
          (range_size (fast_ranges len (min da db) (max da db) 2)) rsel
        = some idx →
      (fast_ranges len (min da db) (max da db) idx).1 <
        (fast_ranges len (min da db) (max da db) idx).2) ∧
    (da + 1 ≤ len ∧ db + 1 ≤ len ∧ 1 ≤ len - 1 ∧ len - 1 < len) := by
  refine ⟨?_, ?_, ?_, by omega⟩
  · intro g k
    obtain ⟨p, k2, heq, _, hk⟩ := fast_ok_valid len da db g k h3 hne ha hb
    exact ⟨p, k2, heq, hk⟩
  · have e0 : range_size (fast_ranges len (min da db) (max da db) 0)
        = min da db := by simp [range_size, fast_ranges]
    have e1 : range_size (fast_ranges len (min da db) (max da db) 1)
        = max da db - (min da db + 1) := by simp [range_size, fast_ranges]
    have e2 : range_size (fast_ranges len (min da db) (max da db) 2)
        = len - (max da db + 1) := by simp [range_size, fast_ranges]
    rw [e0, e1, e2]
    omega
  · intro rsel idx hs
    rcases sample_weighted_pos _ _ _ _ _ hs with ⟨h0, hp⟩ | ⟨h1, hp⟩ | ⟨h2, hp⟩ <;>
      subst_vars <;> simp only [range_size] at hp <;> omega

theorem c7_witness :
    ∃ p : Nat × Nat, ∃ k2 : Nat,
      random_distinct_index_tuple_ordered_except_fast 3 0 2 (fun _ => 0) 0 =
        Except.ok (p, k2) ∧ 0 ≤ k2 ∧ k2 ≤ 0 + 3 :=
  (c7_fast_never_fails 3 0 2 (by decide) (by decide) (by decide)
    (by decide)).1 (fun _ => 0) 0

/-- Claim C8: for every valid input, each sampler's possible outputs range
over exactly the valid pairs: every returned pair is valid (in particular
the denied pair never appears), and for every valid pair some randomness
outcome makes the sampler return it — for both samplers. -/
theorem c8_support_eq_valid_pairs (len da db : Nat) (h3 : 3 ≤ len)
    (hne : da ≠ db) (ha : da < len) (hb : db < len) :
    (∀ g : Nat → Nat, ∀ k fuel k2 : Nat, ∀ p : Nat × Nat,
      random_distinct_index_tuple_ordered_except_good len da db g k fuel =
        Except.ok (some (p, k2)) →
      valid_pair len da db p.1 p.2) ∧
    (∀ i j : Nat, valid_pair len da db i j →
      ∃ g : Nat → Nat,
        random_distinct_index_tuple_ordered_except_good len da db g 0 1 =
          Except.ok (some ((i, j), 2))) ∧
    (∀ g : Nat → Nat, ∀ k k2 : Nat, ∀ p : Nat × Nat,
      random_distinct_index_tuple_ordered_except_fast len da db g k =
        Except.ok (p, k2) →
      valid_pair len da db p.1 p.2) ∧
    (∀ i j : Nat, valid_pair len da db i j →
      ∃ g : Nat → Nat, ∃ k2 : Nat,
        random_distinct_index_tuple_ordered_except_fast len da db g 0 =
          Except.ok ((i, j), k2)) := by
  refine ⟨?_, ?_, ?_, ?_⟩
  · intro g k fuel k2 p h
    exact (good_sound len da db g k fuel p k2 h).2
  · intro i j hvp
    exact ⟨fun n => if n = 0 then i else j - 1,
      good_reaches len da db i j h3 hne ha hb hvp⟩
  · intro g k k2 p h
    exact (fast_sound len da db g k p k2 h).2.1
  · intro i j hvp
    exact fast_reaches len da db i j h3 hne ha hb hvp

theorem c8_witness :
    ∃ g : Nat → Nat,
      random_distinct_index_tuple_ordered_except_good 4 0 2 g 0 1 =
        Except.ok (some ((1, 3), 2)) :=
  (c8_support_eq_valid_pairs 4 0 2 (by decide) (by decide) (by decide)
    (by decide)).2.1 1 3 (by decide)

/-- Claim C9: each sampler is a deterministic function of its inputs and the
randomness-source state: two runs whose sources agree on the consumed stream
positions (two per loop iteration for the good sampler, at most three for
the fast one) produce identical results, including the advanced cursor. -/
theorem c9_deterministic (len da db : Nat) (g g' : Nat → Nat)
    (k fuel : Nat) :
    ((∀ i, i < 2 * fuel → g (k + i) = g' (k + i)) →
      random_distinct_index_tuple_ordered_except_good len da db g k fuel =
        random_distinct_index_tuple_ordered_except_good len da db g' k fuel) ∧
    ((∀ i, i < 3 → g (k + i) = g' (k + i)) →
      random_distinct_index_tuple_ordered_except_fast len da db g k =
        random_distinct_index_tuple_ordered_except_fast len da db g' k) :=
  ⟨good_congr len da db g g' k fuel, fast_congr len da db g g' k⟩

theorem c9_witness :
    random_distinct_index_tuple_ordered_except_good 3 0 2 (fun n => n) 0 1 =
      random_distinct_index_tuple_ordered_except_good 3 0 2
        (fun n => n + 0) 0 1 :=
  (c9_deterministic 3 0 2 (fun n => n) (fun n => n + 0) 0 1).1 (by decide)

/-- Claim C10: both samplers are invariant under swapping the denied pair's
components: with the same source and cursor, deny `(x, y)` and deny `(y, x)`
return the same value and consume the source identically (and abort
together on invalid inputs). -/
theorem c10_deny_swap_invariant (len x y : Nat) (g : Nat → Nat)
    (k fuel : Nat) :
    ok_value (random_distinct_index_tuple_ordered_except_good len x y g k fuel)
      = ok_value
        (random_distinct_index_tuple_ordered_except_good len y x g k fuel) ∧
    ok_value (random_distinct_index_tuple_ordered_except_fast len x y g k)
      = ok_value
        (random_distinct_index_tuple_ordered_except_fast len y x g k) := by
  by_cases hval : 3 ≤ len ∧ x ≠ y ∧ x < len ∧ y < len
  · obtain ⟨h3, hxy, hx, hy⟩ := hval
    have hok1 : validate_inputs len x y = Except.ok () :=
      (validate_inputs_ok_iff len x y).mpr ⟨h3, hxy, hx, hy⟩
    have hok2 : validate_inputs len y x = Except.ok () :=
      (validate_inputs_ok_iff len y x).mpr ⟨h3, Ne.symm hxy, hy, hx⟩
    constructor
    · rw [good_eval_loop len x y g k fuel hok1,
        good_eval_loop len y x g k fuel hok2, good_loop_swap len x y g fuel k]
    · have halen : g k % len < len := Nat.mod_lt _ (by omega)
      by_cases hden : g k % len = x ∨ g k % len = y
      · obtain ⟨b, idx, _, hbd, _⟩ :=
          fast_b_denied_spec len (min x y) (max x y) (g (k + 1)) (g (k + 2))
            h3 (by omega) (by omega)
        have hbd2 : fast_b_denied len (min y x) (max y x) (g (k + 1))
            (g (k + 2)) = some b := by
          rw [Nat.min_comm y x, Nat.max_comm y x]
          exact hbd
        rw [fast_eval_denied len x y g k hok1 hden b hbd,
          fast_eval_denied len y x g k hok2 (Or.symm hden) b hbd2]
      · have hden2 : ¬(g k % len = y ∨ g k % len = x) := by tauto
        obtain ⟨b, hbf, _, _⟩ :=
          fast_b_free_spec len (g k % len) (g (k + 1)) (by omega) halen
        rw [fast_eval_free len x y g k hok1 hden b hbf,
          fast_eval_free len y x g k hok2 hden2 b hbf]
  · have hbad1 : len < 3 ∨ x = y ∨ len ≤ x ∨ len ≤ y := by omega
    have hbad2 : len < 3 ∨ y = x ∨ len ≤ y ∨ len ≤ x := by omega
    obtain ⟨e1, he1⟩ := (validate_inputs_error_iff len x y).mpr hbad1
    obtain ⟨e2, he2⟩ := (validate_inputs_error_iff len y x).mpr hbad2
    rw [good_error len x y g k fuel e1 he1, good_error len y x g k fuel e2 he2,
      fast_error len x y g k e1 he1, fast_error len y x g k e2 he2]
    exact ⟨rfl, rfl⟩

theorem c10_witness :
    ok_value (random_distinct_index_tuple_ordered_except_good 4 1 3
        (fun n => n) 0 2)
      = ok_value (random_distinct_index_tuple_ordered_except_good 4 3 1
        (fun n => n) 0 2) :=
  (c10_deny_swap_invariant 4 1 3 (fun n => n) 0 2).1

end RandIndices
